import Mathlib

/-!
Verification of `src/generate_graphs.py` (bautrey37/body-measurements).

The script loads one CSV table, infers a date/type/value column triple from the
column names, and renders per-category time-series charts for two timeframes
("all time" and "trailing one year").  We embed the pure content of the script:
column-role inference, timeframe filtering, date arithmetic, grid layout of the
composite figure, axis bounds, output file naming, and the effect order of
`create_graphs`.
-/

/-- A row of the loaded table: the value of the inferred date column (modelled
as a day number), the value of the inferred type column, and the value of the
inferred value column. -/
structure Row where
  time : Int
  cat : String
  value : Int
deriving DecidableEq, Repr

/-- Boolean prefix test on character lists. -/
def isPrefixB : List Char → List Char → Bool
  | [], _ => true
  | _ :: _, [] => false
  | a :: as, b :: bs => a == b && isPrefixB as bs

/-- Boolean infix test on character lists. -/
def infixB : List Char → List Char → Bool
  | sub, [] => sub.isEmpty
  | sub, c :: cs => isPrefixB sub (c :: cs) || infixB sub cs

/-- Substring test, embedding Python's `keyword in col`. -/
def strContains (s sub : String) : Bool :=
  infixB sub.toList s.toList

/-- Lower-casing, embedding Python's `col.lower()` (character-wise, which
agrees with `str.lower` on the ASCII column names at issue). -/
def strLower (s : String) : String :=
  ⟨s.data.map Char.toLower⟩

/-- The three inferred column names.  `none` models the Python value `None`,
which a role keeps when neither a keyword match nor a positional fallback
assigns it. -/
structure ColRoles where
  date_col : Option String
  type_col : Option String
  value_col : Option String
deriving DecidableEq, Repr

/-- Date-role inference from `create_graphs` (src/generate_graphs.py lines
156-160 and 175-176): the first column whose lower-cased name contains
"date", "time" or "timestamp", else the first column when there is one. -/
def inferDateCol (cols : List String) : Option String :=
  match cols.find? (fun c => ["date", "time", "timestamp"].any (strContains (strLower c))) with
  | some x => some x
  | none => if 1 ≤ cols.length then cols.head? else none

/-- Type-role inference: the keyword loop of lines 163-166 followed by the
positional fallback of lines 177-178. -/
def inferTypeCol (cols : List String) : Option String :=
  match cols.find? (fun c => ["type", "category", "kind"].any (strContains (strLower c))) with
  | some x => some x
  | none =>
    if 2 ≤ cols.length then (if 2 < cols.length then cols[1]? else cols.getLast?) else none

/-- Value-role inference: the keyword loop of lines 168-172 followed by the
positional fallback of lines 179-180. -/
def inferValueCol (cols : List String) : Option String :=
  match cols.find? (fun c => ["value", "amount", "measurement", "data"].any (strContains (strLower c))) with
  | some x => some x
  | none =>
    if 2 ≤ cols.length then (if 2 < cols.length then cols.getLast? else cols[1]?) else none

/-- The full role assignment of `create_graphs`. -/
def inferColumns (cols : List String) : ColRoles :=
  ⟨inferDateCol cols, inferTypeCol cols, inferValueCol cols⟩

/-- Modelled from the spec: "time column: first column whose name contains
(case-insensitive) 'date', 'time', or 'timestamp'; else the first column."
Keyword matching is case-insensitive in all three spec rules, as §4.2 states
it for the time column.  Unlike the code, the spec's fallbacks carry no
condition on the total column count. -/
def specDateCol (cols : List String) : Option String :=
  match cols.find? (fun c => ["date", "time", "timestamp"].any (strContains (strLower c))) with
  | some x => some x
  | none => cols.head?

/-- Modelled from the spec: "category column: first column whose name contains
'type', 'category', or 'kind'; else, if ≥3 columns, the second column, else
the last column." -/
def specTypeCol (cols : List String) : Option String :=
  match cols.find? (fun c => ["type", "category", "kind"].any (strContains (strLower c))) with
  | some x => some x
  | none => if 3 ≤ cols.length then cols[1]? else cols.getLast?

/-- Modelled from the spec: "value column: first column whose name contains
'value', 'amount', 'measurement', or 'data'; else the last column (or second,
mirroring the category fallback)." -/
def specValueCol (cols : List String) : Option String :=
  match cols.find? (fun c => ["value", "amount", "measurement", "data"].any (strContains (strLower c))) with
  | some x => some x
  | none => if 3 ≤ cols.length then cols.getLast? else cols[1]?

/-- The role assignment as the spec's §4.2 rules state it. -/
def specInferColumns (cols : List String) : ColRoles :=
  ⟨specDateCol cols, specTypeCol cols, specValueCol cols⟩

/-- Whether each of the three roles inferred for `cols` is assigned and names
an actual column: the invariant the spec's data-model section claims. -/
def rolesAllValid (cols : List String) : Bool :=
  match inferColumns cols with
  | ⟨some d, some t, some v⟩ => decide (d ∈ cols) && decide (t ∈ cols) && decide (v ∈ cols)
  | _ => false

/-- Timeframe filter from `create_timeframe_graphs` (lines 10-15): keep the
rows at or after `start_date` (when given), then the rows at or before
`end_date` (when given); both comparisons are inclusive. -/
def filterTimeframe (rows : List Row) (start_date end_date : Option Int) : List Row :=
  let f1 := match start_date with
    | none => rows
    | some s => rows.filter (fun r => decide (s ≤ r.time))
  match end_date with
  | none => f1
  | some e => f1.filter (fun r => decide (r.time ≤ e))

/-- Day number of a Gregorian calendar date (proleptic, March-based year
algorithm); used to embed pandas timestamps so that `timedelta(days = n)`
becomes subtraction of `n`.  Day 0 is 1970-01-01. -/
def daysFromCivil (y m d : Nat) : Int :=
  let y2 := if m ≤ 2 then y - 1 else y
  let era := y2 / 400
  let yoe := y2 % 400
  let mp := if 2 < m then m - 3 else m + 9
  let doy := (153 * mp + 2) / 5 + d - 1
  let doe := yoe * 365 + yoe / 4 - yoe / 100 + doy
  ((era * 146097 + doe : Nat) : Int) - 719468

/-- Lower bound of the trailing-one-year window (lines 203-204):
`max_date - timedelta(days=365)`. -/
def oneYearAgo (maxDate : Int) : Int :=
  maxDate - 365

/-- First-occurrence deduplication (accumulator is the set of already seen
values), embedding `pandas.Series.unique`, which keeps order of first
appearance. -/
def uniqueAux (seen : List String) : List String → List String
  | [] => []
  | a :: l => if a ∈ seen then uniqueAux seen l else a :: uniqueAux (a :: seen) l

/-- The distinct category values of a table in order of first appearance,
embedding `df[type_col].unique()` (line 191). -/
def uniqueCats (rows : List Row) : List String :=
  uniqueAux [] (rows.map Row.cat)

/-- Minimum of the time column, embedding `filtered_df[date_col].min()`;
defaults to 0 on the empty table (pandas would give NaN, but every use in the
script is guarded by a non-emptiness check). -/
def minTime : List Row → Int
  | [] => 0
  | [r] => r.time
  | r :: r2 :: rs => min r.time (minTime (r2 :: rs))

/-- Maximum of the time column, embedding `filtered_df[date_col].max()`. -/
def maxTime : List Row → Int
  | [] => 0
  | [r] => r.time
  | r :: r2 :: rs => max r.time (maxTime (r2 :: rs))

/-- Stable insertion into a list sorted by time (equal keys keep their
original relative order, as in pandas' stable default sort). -/
def insertByTime (r : Row) : List Row → List Row
  | [] => [r]
  | x :: xs => if r.time < x.time then r :: x :: xs else x :: insertByTime r xs

/-- Stable sort by the time column, embedding `type_data.sort_values(date_col)`
(lines 67 and 107). -/
def sortByTime : List Row → List Row
  | [] => []
  | x :: xs => insertByTime x (sortByTime xs)

/-- Replacement of every occurrence of the character `a` by `b`, embedding
Python's single-character `str.replace`. -/
def replaceChar (a b : Char) (s : String) : String :=
  ⟨s.data.map (fun c => if c = a then b else c)⟩

/-- Filename sanitization from line 126:
`data_type.replace(' ', '_').replace('/', '_').replace('\\', '_')`. -/
def sanitize (s : String) : String :=
  replaceChar '\\' '_' (replaceChar '/' '_' (replaceChar ' ' '_' s))

/-- What `sanitize` does to one character. -/
def sanitizeChar (c : Char) : Char :=
  if c = ' ' ∨ c = '/' ∨ c = '\\' then '_' else c

/-- Name of a standalone per-category image file (line 127):
`f'{safe_filename}_graph_{output_suffix}.png'`. -/
def individualName (data_type output_suffix : String) : String :=
  sanitize data_type ++ "_graph_" ++ output_suffix ++ ".png"

/-- Name of the combined image file (line 97):
`f'data_graphs_combined_{output_suffix}.png'`. -/
def combinedName (output_suffix : String) : String :=
  "data_graphs_combined_" ++ output_suffix ++ ".png"

/-- One drawn chart: its category subtitle, its (time, value) points in
plotting order, and its x-axis bounds (`ax.set_xlim` / `plt.xlim`). -/
structure Panel where
  category : String
  points : List (Int × Int)
  xlim : Int × Int
deriving DecidableEq, Repr

/-- A standalone per-category figure: its output file name and its chart. -/
structure Standalone where
  fileName : String
  panel : Panel
deriving DecidableEq, Repr

/-- The observable output of one `create_timeframe_graphs` call: the combined
file name (if it returned anything), the composite figure's grid cells in
row-major order (`none` is a hidden unused cell), and the standalone
figures in the order they are saved. -/
structure GraphOutput where
  combined : Option String
  cells : List (Option Panel)
  standalone : List Standalone
deriving DecidableEq, Repr

/-- Grid column count (line 47): `cols = 2 if num_types > 1 else 1`. -/
def gridCols (num_types : Nat) : Nat :=
  if 1 < num_types then 2 else 1

/-- Grid row count (line 48): `rows = (num_types + cols - 1) // cols`. -/
def gridRows (num_types : Nat) : Nat :=
  (num_types + gridCols num_types - 1) / gridCols num_types

/-- The types kept for a timeframe (lines 21-28): those members of
`unique_types` with at least one row in the filtered frame. -/
def typesWithData (filtered : List Row) (unique_types : List String) : List String :=
  unique_types.filter (fun t => !(filtered.filter (fun r => r.cat == t)).isEmpty)

/-- The chart drawn for one category (lines 66-71 and 106-110): the category's
rows in the filtered frame, sorted by time, with the timeframe's shared
x-axis bounds. -/
def typePanel (filtered : List Row) (mn mx : Int) (data_type : String) : Panel :=
  let type_data := sortByTime (filtered.filter (fun r => r.cat == data_type))
  ⟨data_type, type_data.map (fun r => (r.time, r.value)), (mn, mx)⟩

/-- Embedding of `create_timeframe_graphs` (lines 7-131).  Mirrors the source:
filter by the optional bounds; return nothing if the filtered frame is empty;
drop the types with no row in the window and return nothing if none is left;
compute the shared min/max of the time column; lay the surviving types out on
a 2-column grid (1 column when there is a single type), hiding the unused
cells; and save one standalone figure per surviving type. -/
def create_timeframe_graphs (rows : List Row) (unique_types : List String)
    (output_suffix : String) (start_date end_date : Option Int) : GraphOutput :=
  let filtered := filterTimeframe rows start_date end_date
  if filtered.isEmpty then ⟨none, [], []⟩ else
  let types_with_data := typesWithData filtered unique_types
  if types_with_data.isEmpty then ⟨none, [], []⟩ else
  let min_date := minTime filtered
  let max_date := maxTime filtered
  let num_types := types_with_data.length
  let c := gridCols num_types
  let r := gridRows num_types
  ⟨some (combinedName output_suffix),
   (List.range (r * c)).map (fun i => (types_with_data[i]?).map (typePanel filtered min_date max_date)),
   types_with_data.map (fun t => ⟨individualName t output_suffix, typePanel filtered min_date max_date t⟩)⟩

/-- The parsed CSV as `create_graphs` sees it after the `pd.to_datetime`
attempt (lines 184-188): the rows, and whether the date column now has a
datetime dtype (`pd.to_datetime` succeeded; on failure the column keeps its
original type and the script merely prints a notice). -/
structure LoadedTable where
  rows : List Row
  isDatetime : Bool
deriving Repr

/-- The timeframe passes run by `create_graphs` (lines 194-208): always the
"All Time" pass with no bounds; then, only when the date column is a datetime
dtype, the "Last 1 Year" pass whose lower bound is the maximum date minus 365
days (no upper bound). -/
def create_graphs_passes (t : LoadedTable) : List GraphOutput :=
  let p1 := create_timeframe_graphs t.rows (uniqueCats t.rows) "absolute" none none
  if t.isDatetime then
    [p1,
     create_timeframe_graphs t.rows (uniqueCats t.rows) "1year"
       (some (oneYearAgo (maxTime t.rows))) none]
  else
    [p1]

/-- Observable side effects of a run, in program order. -/
inductive Effect where
  | mkdirOut : Effect
  | logNoInput : Effect
  | writeFile : String → Effect
deriving DecidableEq, Repr

/-- File writes of one timeframe pass, in program order: the combined figure
is saved first (line 98), then the standalone figures (line 128). -/
def passEffects (g : GraphOutput) : List Effect :=
  (match g.combined with
   | some f => [Effect.writeFile f]
   | none => []) ++ g.standalone.map (fun st => Effect.writeFile st.fileName)

/-- Embedding of `create_graphs` (lines 133-208) at the level of side
effects: it first creates the output directory `out` (line 135,
`os.makedirs('out', exist_ok=True)`), then lists the data directory and keeps
the names ending in `.csv`; when none is found it logs and returns, otherwise
it parses the first match (the `load` argument stands for that parsed table)
and runs the timeframe passes. -/
def create_graphs (dirListing : List String) (load : LoadedTable) : List Effect :=
  Effect.mkdirOut ::
    (let data_files := dirListing.filter (fun f => f.endsWith ".csv")
     if data_files.isEmpty then
       [Effect.logNoInput]
     else
       (create_graphs_passes load).flatMap passEffects)

/-- The timeframe filter keeps exactly the rows inside the (inclusive,
optional) bounds. -/
lemma mem_filterTimeframe {rows : List Row} {s e : Option Int} {r : Row} :
    r ∈ filterTimeframe rows s e ↔
      r ∈ rows ∧ (∀ lo ∈ s, lo ≤ r.time) ∧ (∀ hi ∈ e, r.time ≤ hi) := by
  cases s <;> cases e <;>
    (simp [filterTimeframe, List.mem_filter, Option.mem_def]; try tauto)

lemma mem_of_mem_filterTimeframe {rows : List Row} {s e : Option Int} {r : Row}
    (h : r ∈ filterTimeframe rows s e) : r ∈ rows :=
  (mem_filterTimeframe.1 h).1

lemma mem_uniqueAux {c : String} :
    ∀ {l seen : List String}, c ∈ uniqueAux seen l ↔ c ∈ l ∧ c ∉ seen := by
  intro l
  induction l with
  | nil => simp [uniqueAux]
  | cons a l ih =>
    intro seen
    by_cases ha : a ∈ seen
    · rw [uniqueAux, if_pos ha, ih]
      constructor
      · exact fun ⟨h1, h2⟩ => ⟨List.mem_cons_of_mem _ h1, h2⟩
      · rintro ⟨h1, h2⟩
        rcases List.mem_cons.1 h1 with rfl | h1
        · exact absurd ha h2
        · exact ⟨h1, h2⟩
    · rw [uniqueAux, if_neg ha]
      constructor
      · intro h
        rcases List.mem_cons.1 h with rfl | h
        · exact ⟨List.mem_cons_self _ _, ha⟩
        · rcases ih.1 h with ⟨h1, h2⟩
          exact ⟨List.mem_cons_of_mem _ h1, fun hc => h2 (List.mem_cons_of_mem _ hc)⟩
      · rintro ⟨h1, h2⟩
        rcases List.mem_cons.1 h1 with rfl | h1
        · exact List.mem_cons_self _ _
        · by_cases hca : c = a
          · subst hca
            exact List.mem_cons_self _ _
          · refine List.mem_cons_of_mem _ (ih.2 ⟨h1, fun hc => ?_⟩)
            rcases List.mem_cons.1 hc with h | h
            · exact hca h
            · exact h2 h

/-- A category is listed by `uniqueCats` exactly when some row carries it. -/
lemma mem_uniqueCats {rows : List Row} {c : String} :
    c ∈ uniqueCats rows ↔ ∃ r ∈ rows, r.cat = c := by
  simp [uniqueCats, mem_uniqueAux, List.mem_map, eq_comm]

lemma minTime_le : ∀ {l : List Row} {r : Row}, r ∈ l → minTime l ≤ r.time := by
  intro l
  induction l with
  | nil => intro r h; cases h
  | cons x xs ih =>
    intro r h
    rcases List.mem_cons.1 h with rfl | h
    · cases xs with
      | nil => simp [minTime]
      | cons y ys => exact le_trans (min_le_left _ _) le_rfl
    · cases xs with
      | nil => cases h
      | cons y ys => exact le_trans (min_le_right _ _) (ih h)

lemma minTime_mem : ∀ {l : List Row}, l ≠ [] → ∃ r ∈ l, r.time = minTime l := by
  intro l
  induction l with
  | nil => intro h; exact absurd rfl h
  | cons x xs ih =>
    intro _
    cases xs with
    | nil => exact ⟨x, List.mem_singleton_self x, rfl⟩
    | cons y ys =>
      rcases le_total x.time (minTime (y :: ys)) with h | h
      · exact ⟨x, List.mem_cons_self _ _, (min_eq_left h).symm⟩
      · rcases ih (by simp) with ⟨r, hr, hrt⟩
        exact ⟨r, List.mem_cons_of_mem _ hr, by rw [minTime, min_eq_right h, hrt]⟩

lemma le_maxTime : ∀ {l : List Row} {r : Row}, r ∈ l → r.time ≤ maxTime l := by
  intro l
  induction l with
  | nil => intro r h; cases h
  | cons x xs ih =>
    intro r h
    rcases List.mem_cons.1 h with rfl | h
    · cases xs with
      | nil => simp [maxTime]
      | cons y ys => exact le_trans le_rfl (le_max_left _ _)
    · cases xs with
      | nil => cases h
      | cons y ys => exact le_trans (ih h) (le_max_right _ _)

lemma maxTime_mem : ∀ {l : List Row}, l ≠ [] → ∃ r ∈ l, r.time = maxTime l := by
  intro l
  induction l with
  | nil => intro h; exact absurd rfl h
  | cons x xs ih =>
    intro _
    cases xs with
    | nil => exact ⟨x, List.mem_singleton_self x, rfl⟩
    | cons y ys =>
      rcases le_total (maxTime (y :: ys)) x.time with h | h
      · exact ⟨x, List.mem_cons_self _ _, (max_eq_left h).symm⟩
      · rcases ih (by simp) with ⟨r, hr, hrt⟩
        exact ⟨r, List.mem_cons_of_mem _ hr, by rw [maxTime, max_eq_right h, hrt]⟩

/-- Reading a list through `List.range` and `getElem?` lays it out followed by
`none` padding. -/
lemma rangeMapGetElem {α : Type} :
    ∀ (l : List α) (m : Nat), l.length ≤ m →
      (List.range m).map (fun i => l[i]?) = l.map some ++ List.replicate (m - l.length) none := by
  intro l
  induction l with
  | nil =>
    intro m _
    simp [List.map_const']
  | cons a l ih =>
    intro m hm
    cases m with
    | zero => simp at hm
    | succ m =>
      rw [List.range_succ_eq_map]
      simp only [List.map_cons, List.map_map, List.getElem?_cons_zero]
      have : (List.range m).map ((fun i => (a :: l)[i]?) ∘ Nat.succ)
          = (List.range m).map (fun i => l[i]?) := by
        apply List.map_congr_left
        intro i _
        simp
      rw [this, ih m (Nat.le_of_succ_le_succ hm)]
      simp [List.replicate, Nat.succ_sub_succ]

lemma inferDateCol_mem {cols : List String} (h : 1 ≤ cols.length) :
    ∃ d, inferDateCol cols = some d ∧ d ∈ cols := by
  rw [inferDateCol]
  cases hf : cols.find? (fun c => ["date", "time", "timestamp"].any (strContains (strLower c))) with
  | some x => exact ⟨x, rfl, List.mem_of_find?_eq_some hf⟩
  | none =>
    cases cols with
    | nil => simp at h
    | cons a rest => exact ⟨a, by simp, List.mem_cons_self _ _⟩

lemma inferTypeCol_mem {cols : List String} (h : 2 ≤ cols.length) :
    ∃ t, inferTypeCol cols = some t ∧ t ∈ cols := by
  rw [inferTypeCol]
  cases hf : cols.find? (fun c => ["type", "category", "kind"].any (strContains (strLower c))) with
  | some x => exact ⟨x, rfl, List.mem_of_find?_eq_some hf⟩
  | none =>
    match cols, h with
    | a :: b :: rest, _ =>
      by_cases hc : 2 < (a :: b :: rest).length
      · refine ⟨b, ?_, by simp⟩
        rw [if_pos (by simp : 2 ≤ (a :: b :: rest).length), if_pos hc]
        simp
      · refine ⟨(a :: b :: rest).getLast (by simp), ?_, List.getLast_mem _⟩
        simp only [if_pos (by simp : 2 ≤ (a :: b :: rest).length), if_neg hc]
        exact List.getLast?_eq_getLast _ _

lemma inferValueCol_mem {cols : List String} (h : 2 ≤ cols.length) :
    ∃ v, inferValueCol cols = some v ∧ v ∈ cols := by
  rw [inferValueCol]
  cases hf : cols.find? (fun c => ["value", "amount", "measurement", "data"].any (strContains (strLower c))) with
  | some x => exact ⟨x, rfl, List.mem_of_find?_eq_some hf⟩
  | none =>
    match cols, h with
    | a :: b :: rest, _ =>
      by_cases hc : 2 < (a :: b :: rest).length
      · refine ⟨(a :: b :: rest).getLast (by simp), ?_, List.getLast_mem _⟩
        simp only [if_pos (by simp : 2 ≤ (a :: b :: rest).length), if_pos hc]
        exact List.getLast?_eq_getLast _ _
      · refine ⟨b, ?_, by simp⟩
        rw [if_pos (by simp : 2 ≤ (a :: b :: rest).length), if_neg hc]
        simp

/-- C1 counterexample: on a single-column table with no keyword match, the
code leaves the category role unassigned (`None`), while the claim's rule
("otherwise the last column") picks the only column; so the inference does
not obey the stated rules there. -/
theorem inferColumns_single_column_breaks_spec_rules :
    inferColumns ["a"] ≠ specInferColumns ["a"] := by
  decide

/-- C1 (amended): on every table with at least two columns, column-role
inference obeys the spec's rules (keyword match first, then the stated
positional fallbacks); with a single column the category and value fallbacks
do not apply and those roles stay unassigned.  In particular the two concrete
examples of the claim hold. -/
theorem inferColumns_matches_spec_rules :
    (∀ cols : List String, 2 ≤ cols.length → inferColumns cols = specInferColumns cols)
    ∧ inferColumns ["date", "category", "value"]
        = ⟨some "date", some "category", some "value"⟩
    ∧ inferColumns ["a", "b", "c"] = ⟨some "a", some "b", some "c"⟩ := by
  refine ⟨?_, by decide, by decide⟩
  intro cols h
  have h1 : 1 ≤ cols.length := by omega
  have hd : inferDateCol cols = specDateCol cols := by
    rw [inferDateCol, specDateCol]
    cases cols.find? (fun c => ["date", "time", "timestamp"].any (strContains (strLower c))) with
    | some x => rfl
    | none => rw [if_pos h1]
  have ht : inferTypeCol cols = specTypeCol cols := by
    rw [inferTypeCol, specTypeCol]
    cases cols.find? (fun c => ["type", "category", "kind"].any (strContains (strLower c))) with
    | some x => rfl
    | none =>
      rw [if_pos h]
      by_cases hc : 2 < cols.length
      · rw [if_pos hc, if_pos (by omega)]
      · rw [if_neg hc, if_neg (by omega)]
  have hv : inferValueCol cols = specValueCol cols := by
    rw [inferValueCol, specValueCol]
    cases cols.find? (fun c => ["value", "amount", "measurement", "data"].any (strContains (strLower c))) with
    | some x => rfl
    | none =>
      rw [if_pos h]
      by_cases hc : 2 < cols.length
      · rw [if_pos hc, if_pos (by omega)]
      · rw [if_neg hc, if_neg (by omega)]
  rw [inferColumns, specInferColumns, hd, ht, hv]

/-- C1 witness: the amended rule evaluated on the concrete two-column table
`["height", "weight"]`. -/
theorem inferColumns_matches_spec_rules_witness :
    2 ≤ (["height", "weight"] : List String).length
      ∧ inferColumns ["height", "weight"] = specInferColumns ["height", "weight"] :=
  ⟨by decide, inferColumns_matches_spec_rules.1 ["height", "weight"] (by decide)⟩

/-- C2 counterexample: on the one-column table `["a"]` the category and value
roles stay `None`, so not every selected name is a valid column name; the
claimed invariant fails exactly on the single-column tables it singles out. -/
theorem rolesAllValid_fails_on_single_column :
    rolesAllValid ["a"] = false := by
  decide

/-- C2 (amended): on every table with at least two columns, all three
selected roles are assigned and each names a valid column of the table. -/
theorem roles_valid_of_two_columns :
    ∀ cols : List String, 2 ≤ cols.length → rolesAllValid cols = true := by
  intro cols h
  rcases inferDateCol_mem (show 1 ≤ cols.length by omega) with ⟨d, hd, hdm⟩
  rcases inferTypeCol_mem h with ⟨t, ht, htm⟩
  rcases inferValueCol_mem h with ⟨v, hv, hvm⟩
  rw [rolesAllValid, inferColumns, hd, ht, hv]
  simp [hdm, htm, hvm]

/-- C2 witness: the amended invariant evaluated on the concrete two-column
table `["a", "b"]`. -/
theorem roles_valid_of_two_columns_witness :
    2 ≤ (["a", "b"] : List String).length ∧ rolesAllValid ["a", "b"] = true :=
  ⟨by decide, roles_valid_of_two_columns ["a", "b"] (by decide)⟩

/-- C3: the timeframe filter keeps exactly the rows whose time value lies
within the given optional bounds, inclusive at both ends; the trailing
one-year lower bound for max date 2024-06-01 is 2023-06-02 (max minus 365
days); and a row exactly at that bound is kept. -/
theorem timeframe_filter_inclusive_and_window_bound :
    (∀ (rows : List Row) (s e : Option Int) (r : Row),
        r ∈ filterTimeframe rows s e ↔
          r ∈ rows ∧ (∀ lo ∈ s, lo ≤ r.time) ∧ (∀ hi ∈ e, r.time ≤ hi))
    ∧ oneYearAgo (daysFromCivil 2024 6 1) = daysFromCivil 2023 6 2
    ∧ (∀ (rows : List Row) (r : Row),
        r ∈ rows → r.time = oneYearAgo (daysFromCivil 2024 6 1) →
          r ∈ filterTimeframe rows (some (oneYearAgo (daysFromCivil 2024 6 1))) none) := by
  refine ⟨fun rows s e r => mem_filterTimeframe, by decide, ?_⟩
  intro rows r hr ht
  exact mem_filterTimeframe.2 ⟨hr, by simp [ht], by simp⟩

/-- C3 witness: the single row dated exactly 2023-06-02 survives the
one-year filter whose maximum date is 2024-06-01. -/
theorem timeframe_filter_witness :
    (⟨daysFromCivil 2023 6 2, "w", 0⟩ : Row) ∈
      filterTimeframe [⟨daysFromCivil 2023 6 2, "w", 0⟩]
        (some (oneYearAgo (daysFromCivil 2024 6 1))) none :=
  timeframe_filter_inclusive_and_window_bound.2.2 _ _
    (List.mem_singleton_self _) (by decide)

/-- C4: for a table with at least one row, the standalone files of a
timeframe are exactly one per category with at least one row in the window
(in first-appearance order), and the kept categories are exactly those with a
row in the filtered frame; categories with no row in the window produce no
file and do not stop the others. -/
theorem standalone_files_are_categories_with_data :
    ∀ (rows : List Row) (suffix : String) (s e : Option Int),
      rows ≠ [] →
        ((create_timeframe_graphs rows (uniqueCats rows) suffix s e).standalone.map
            (fun st => st.fileName)
          = (typesWithData (filterTimeframe rows s e) (uniqueCats rows)).map
              (fun t => individualName t suffix))
        ∧ (∀ c, c ∈ typesWithData (filterTimeframe rows s e) (uniqueCats rows)
            ↔ ∃ r ∈ filterTimeframe rows s e, r.cat = c) := by
  intro rows suffix s e _
  constructor
  · simp only [create_timeframe_graphs]
    by_cases hf : (filterTimeframe rows s e).isEmpty
    · rw [if_pos hf]
      have hfe : filterTimeframe rows s e = [] := by simpa using hf
      simp [typesWithData, hfe]
    · rw [if_neg hf]
      by_cases ht : (typesWithData (filterTimeframe rows s e) (uniqueCats rows)).isEmpty
      · rw [if_pos ht]
        have hte : typesWithData (filterTimeframe rows s e) (uniqueCats rows) = [] := by
          simpa using ht
        simp [hte]
      · rw [if_neg ht]
        simp [List.map_map, Function.comp]
  · intro c
    constructor
    · intro hc
      rw [typesWithData, List.mem_filter] at hc
      obtain ⟨_, hcd⟩ := hc
      have hne2 : (filterTimeframe rows s e).filter (fun r => r.cat == c) ≠ [] := by
        simpa using hcd
      obtain ⟨r, hr⟩ := List.exists_mem_of_ne_nil _ hne2
      rw [List.mem_filter] at hr
      exact ⟨r, hr.1, by simpa using hr.2⟩
    · rintro ⟨r, hrf, rfl⟩
      rw [typesWithData, List.mem_filter]
      refine ⟨mem_uniqueCats.2 ⟨r, mem_of_mem_filterTimeframe hrf, rfl⟩, ?_⟩
      have hmem : r ∈ (filterTimeframe rows s e).filter (fun x => x.cat == r.cat) :=
        List.mem_filter.2 ⟨hrf, by simp⟩
      simpa using List.ne_nil_of_mem hmem

/-- C4 witness: the property evaluated on a concrete one-row table with no
bounds. -/
theorem standalone_files_witness :
    ([⟨0, "a", 1⟩] : List Row) ≠ [] ∧
      (create_timeframe_graphs [⟨0, "a", 1⟩] (uniqueCats [⟨0, "a", 1⟩])
          "absolute" none none).standalone.map (fun st => st.fileName)
        = (typesWithData (filterTimeframe [⟨0, "a", 1⟩] none none)
            (uniqueCats [⟨0, "a", 1⟩])).map (fun t => individualName t "absolute") :=
  ⟨by decide,
   (standalone_files_are_categories_with_data [⟨0, "a", 1⟩] "absolute" none none
      (by decide)).1⟩

lemma le_gridRows_mul_gridCols (n : Nat) : n ≤ gridRows n * gridCols n := by
  simp only [gridRows, gridCols]
  split_ifs <;> omega

lemma gridRows_le {n k : Nat} (h : n ≤ k * gridCols n) : gridRows n ≤ k := by
  simp only [gridRows, gridCols] at h ⊢
  split_ifs at h ⊢ <;> omega

lemma countP_some_append_replicate {α : Type} (l : List α) (k : Nat) :
    (l.map some ++ List.replicate k (none : Option α)).countP (fun c => c.isSome)
      = l.length := by
  induction l with
  | nil =>
    induction k with
    | zero => rfl
    | succ k ih => simp [List.replicate_succ, List.countP_cons, ih]
  | cons a l ih => simp [List.countP_cons, ih]

/-- C5: the composite grid has 2 columns when more than one category has data
and 1 otherwise; its row count is the ceiling of the category count over the
column count (stated as: least `k` with `categories ≤ k * cols`); and the grid
cells are the per-category panels in order followed by hidden (`none`) cells
filling the rest of the grid, so the panel count equals the number of
categories with data. -/
theorem composite_grid_layout :
    (∀ n : Nat, gridCols n = if 1 < n then 2 else 1)
    ∧ (∀ n : Nat, n ≤ gridRows n * gridCols n
        ∧ ∀ k : Nat, n ≤ k * gridCols n → gridRows n ≤ k)
    ∧ (∀ (rows : List Row) (uts : List String) (suffix : String) (s e : Option Int),
        (filterTimeframe rows s e).isEmpty = false →
        (typesWithData (filterTimeframe rows s e) uts).isEmpty = false →
          (create_timeframe_graphs rows uts suffix s e).cells
              = (typesWithData (filterTimeframe rows s e) uts).map
                  (fun t => some (typePanel (filterTimeframe rows s e)
                      (minTime (filterTimeframe rows s e))
                      (maxTime (filterTimeframe rows s e)) t))
                ++ List.replicate
                    (gridRows (typesWithData (filterTimeframe rows s e) uts).length
                        * gridCols (typesWithData (filterTimeframe rows s e) uts).length
                      - (typesWithData (filterTimeframe rows s e) uts).length)
                    (none : Option Panel)
            ∧ (create_timeframe_graphs rows uts suffix s e).cells.countP
                (fun c => c.isSome)
              = (typesWithData (filterTimeframe rows s e) uts).length) := by
  refine ⟨fun n => rfl, fun n => ⟨le_gridRows_mul_gridCols n, fun k hk => gridRows_le hk⟩, ?_⟩
  intro rows uts suffix s e hf ht
  have hcells :
      (create_timeframe_graphs rows uts suffix s e).cells
        = (typesWithData (filterTimeframe rows s e) uts).map
            (fun t => some (typePanel (filterTimeframe rows s e)
                (minTime (filterTimeframe rows s e))
                (maxTime (filterTimeframe rows s e)) t))
          ++ List.replicate
              (gridRows (typesWithData (filterTimeframe rows s e) uts).length
                  * gridCols (typesWithData (filterTimeframe rows s e) uts).length
                - (typesWithData (filterTimeframe rows s e) uts).length)
              (none : Option Panel) := by
    simp only [create_timeframe_graphs]
    rw [if_neg (by simp [hf]), if_neg (by simp [ht])]
    have hn := le_gridRows_mul_gridCols (typesWithData (filterTimeframe rows s e) uts).length
    have hrange := rangeMapGetElem (typesWithData (filterTimeframe rows s e) uts)
      (gridRows (typesWithData (filterTimeframe rows s e) uts).length
        * gridCols (typesWithData (filterTimeframe rows s e) uts).length) hn
    have hcomp :
        (List.range (gridRows (typesWithData (filterTimeframe rows s e) uts).length
            * gridCols (typesWithData (filterTimeframe rows s e) uts).length)).map
          (fun i => ((typesWithData (filterTimeframe rows s e) uts)[i]?).map
            (typePanel (filterTimeframe rows s e)
              (minTime (filterTimeframe rows s e)) (maxTime (filterTimeframe rows s e))))
          = ((List.range (gridRows (typesWithData (filterTimeframe rows s e) uts).length
              * gridCols (typesWithData (filterTimeframe rows s e) uts).length)).map
            (fun i => (typesWithData (filterTimeframe rows s e) uts)[i]?)).map
            (Option.map (typePanel (filterTimeframe rows s e)
              (minTime (filterTimeframe rows s e)) (maxTime (filterTimeframe rows s e)))) := by
      rw [List.map_map]
      rfl
    rw [hcomp, hrange]
    simp [List.map_map, Function.comp_def]
  refine ⟨hcells, ?_⟩
  rw [hcells]
  have h2 :
      (typesWithData (filterTimeframe rows s e) uts).map
          (fun t => some (typePanel (filterTimeframe rows s e)
              (minTime (filterTimeframe rows s e))
              (maxTime (filterTimeframe rows s e)) t))
        = ((typesWithData (filterTimeframe rows s e) uts).map
            (typePanel (filterTimeframe rows s e)
              (minTime (filterTimeframe rows s e))
              (maxTime (filterTimeframe rows s e)))).map some := by
    rw [List.map_map]
    rfl
  rw [h2, countP_some_append_replicate, List.length_map]

/-- C5 witness: the layout fact evaluated on a concrete two-category table
(2 columns, 1 row, no hidden cell). -/
theorem composite_grid_layout_witness :
    (filterTimeframe [⟨0, "a", 1⟩, ⟨1, "b", 2⟩] none none).isEmpty = false ∧
    (typesWithData (filterTimeframe [⟨0, "a", 1⟩, ⟨1, "b", 2⟩] none none)
        ["a", "b"]).isEmpty = false ∧
    (create_timeframe_graphs [⟨0, "a", 1⟩, ⟨1, "b", 2⟩] ["a", "b"]
        "absolute" none none).cells.countP (fun c => c.isSome)
      = (typesWithData (filterTimeframe [⟨0, "a", 1⟩, ⟨1, "b", 2⟩] none none)
          ["a", "b"]).length :=
  ⟨by decide, by decide,
   (composite_grid_layout.2.2 [⟨0, "a", 1⟩, ⟨1, "b", 2⟩] ["a", "b"] "absolute" none none
      (by decide) (by decide)).2⟩

/-- C6: within one timeframe, every composite panel and every standalone
figure gets the same x-axis bounds, namely the minimum and maximum time over
all rows of the filtered frame (attained bounds over the included rows, not
per-category bounds). -/
theorem shared_axis_bounds :
    ∀ (rows : List Row) (uts : List String) (suffix : String) (s e : Option Int),
      (∀ p : Panel, some p ∈ (create_timeframe_graphs rows uts suffix s e).cells →
          p.xlim = (minTime (filterTimeframe rows s e), maxTime (filterTimeframe rows s e)))
      ∧ (∀ f ∈ (create_timeframe_graphs rows uts suffix s e).standalone,
          f.panel.xlim
            = (minTime (filterTimeframe rows s e), maxTime (filterTimeframe rows s e)))
      ∧ (∀ r ∈ filterTimeframe rows s e,
          minTime (filterTimeframe rows s e) ≤ r.time
            ∧ r.time ≤ maxTime (filterTimeframe rows s e))
      ∧ (filterTimeframe rows s e ≠ [] →
          (∃ r ∈ filterTimeframe rows s e, r.time = minTime (filterTimeframe rows s e))
            ∧ ∃ r ∈ filterTimeframe rows s e, r.time = maxTime (filterTimeframe rows s e)) := by
  intro rows uts suffix s e
  refine ⟨?_, ?_, fun r hr => ⟨minTime_le hr, le_maxTime hr⟩,
    fun hne => ⟨minTime_mem hne, maxTime_mem hne⟩⟩
  · intro p hp
    simp only [create_timeframe_graphs] at hp
    by_cases hf : (filterTimeframe rows s e).isEmpty
    · rw [if_pos hf] at hp
      simp at hp
    · rw [if_neg hf] at hp
      by_cases ht : (typesWithData (filterTimeframe rows s e) uts).isEmpty
      · rw [if_pos ht] at hp
        simp at hp
      · rw [if_neg ht] at hp
        rw [List.mem_map] at hp
        obtain ⟨i, _, hip⟩ := hp
        cases hti : (typesWithData (filterTimeframe rows s e) uts)[i]? with
        | none =>
          rw [hti] at hip
          simp at hip
        | some t =>
          rw [hti] at hip
          obtain rfl : typePanel (filterTimeframe rows s e)
              (minTime (filterTimeframe rows s e))
              (maxTime (filterTimeframe rows s e)) t = p := by
            simpa using hip
          rfl
  · intro f hfm
    simp only [create_timeframe_graphs] at hfm
    by_cases hf : (filterTimeframe rows s e).isEmpty
    · rw [if_pos hf] at hfm
      simp at hfm
    · rw [if_neg hf] at hfm
      by_cases ht : (typesWithData (filterTimeframe rows s e) uts).isEmpty
      · rw [if_pos ht] at hfm
        simp at hfm
      · rw [if_neg ht] at hfm
        rw [List.mem_map] at hfm
        obtain ⟨t, _, rfl⟩ := hfm
        rfl

/-- C6 witness: on a concrete two-row table the timeframe's bounds are
attained by included rows. -/
theorem shared_axis_bounds_witness :
    filterTimeframe [⟨3, "a", 1⟩, ⟨7, "a", 2⟩] none none ≠ [] ∧
      ((∃ r ∈ filterTimeframe [⟨3, "a", 1⟩, ⟨7, "a", 2⟩] none none,
          r.time = minTime (filterTimeframe [⟨3, "a", 1⟩, ⟨7, "a", 2⟩] none none))
        ∧ ∃ r ∈ filterTimeframe [⟨3, "a", 1⟩, ⟨7, "a", 2⟩] none none,
            r.time = maxTime (filterTimeframe [⟨3, "a", 1⟩, ⟨7, "a", 2⟩] none none)) :=
  ⟨by decide,
   (shared_axis_bounds [⟨3, "a", 1⟩, ⟨7, "a", 2⟩] ["a"] "absolute" none none).2.2.2
     (by decide)⟩

/-- C7: when the date column could not be coerced to a datetime dtype, the
run still performs the all-time pass on the table as loaded, and the
trailing-one-year pass is skipped entirely; when coercion succeeded, both
passes run and the second has lower bound max time minus 365 days. -/
theorem coercion_failure_skips_one_year_pass :
    ∀ t : LoadedTable,
      (t.isDatetime = false →
        create_graphs_passes t
          = [create_timeframe_graphs t.rows (uniqueCats t.rows) "absolute" none none])
      ∧ (t.isDatetime = true →
        create_graphs_passes t
          = [create_timeframe_graphs t.rows (uniqueCats t.rows) "absolute" none none,
             create_timeframe_graphs t.rows (uniqueCats t.rows) "1year"
               (some (oneYearAgo (maxTime t.rows))) none]) := by
  intro t
  constructor <;> intro h <;> simp [create_graphs_passes, h]

/-- C7 witness: a run whose date column stayed non-datetime performs exactly
the all-time pass. -/
theorem coercion_failure_witness :
    (⟨[⟨0, "a", 1⟩], false⟩ : LoadedTable).isDatetime = false
      ∧ create_graphs_passes ⟨[⟨0, "a", 1⟩], false⟩
        = [create_timeframe_graphs [⟨0, "a", 1⟩] (uniqueCats [⟨0, "a", 1⟩])
            "absolute" none none] :=
  ⟨rfl, (coercion_failure_skips_one_year_pass ⟨[⟨0, "a", 1⟩], false⟩).1 rfl⟩

/-- C8: output names are deterministic functions of category and suffix: the
standalone name is the sanitized category followed by the `_graph_` part, the
suffix and `.png`; the combined name is `data_graphs_combined_` with the
suffix; and sanitization maps exactly space, `/` and `\` to `_`, leaving
every other character unchanged. -/
theorem filename_determinism :
    (∀ cat suffix : String,
        individualName cat suffix = sanitize cat ++ "_graph_" ++ suffix ++ ".png")
    ∧ (∀ suffix : String,
        combinedName suffix = "data_graphs_combined_" ++ suffix ++ ".png")
    ∧ (∀ s : String, (sanitize s).data = s.data.map sanitizeChar)
    ∧ sanitizeChar ' ' = '_' ∧ sanitizeChar '/' = '_' ∧ sanitizeChar '\\' = '_'
    ∧ (∀ c : Char, c ≠ ' ' → c ≠ '/' → c ≠ '\\' → sanitizeChar c = c) := by
  refine ⟨fun _ _ => rfl, fun _ => rfl, ?_, rfl, rfl, rfl, ?_⟩
  · intro s
    simp only [sanitize, replaceChar, List.map_map]
    apply List.map_congr_left
    intro c _
    by_cases hsp : c = ' '
    · subst hsp
      decide
    · by_cases hsl : c = '/'
      · subst hsl
        decide
      · by_cases hbs : c = '\\'
        · subst hbs
          decide
        · simp [sanitizeChar, hsp, hsl, hbs]
  · intro c h1 h2 h3
    simp [sanitizeChar, h1, h2, h3]

/-- C8 witness: sanitization leaves the ordinary character `a` unchanged. -/
theorem filename_determinism_witness :
    ('a' ≠ ' ' ∧ 'a' ≠ '/' ∧ 'a' ≠ '\\') ∧ sanitizeChar 'a' = 'a' :=
  ⟨⟨by decide, by decide, by decide⟩,
   filename_determinism.2.2.2.2.2.2 'a' (by decide) (by decide) (by decide)⟩

/-- C9: sanitization is not injective: the distinct categories `"a b"` and
`"a_b"` both have data in the all-time window, yet their standalone files get
the same name, so the later save overwrites the earlier one and the number of
distinct standalone files is smaller than the number of categories with
data. -/
theorem sanitize_collision_overwrites :
    "a b" ≠ "a_b"
    ∧ (create_timeframe_graphs [⟨0, "a b", 1⟩, ⟨0, "a_b", 2⟩]
          (uniqueCats [⟨0, "a b", 1⟩, ⟨0, "a_b", 2⟩]) "absolute" none none).standalone.map
          (fun st => st.fileName)
        = ["a_b_graph_absolute.png", "a_b_graph_absolute.png"]
    ∧ ((create_timeframe_graphs [⟨0, "a b", 1⟩, ⟨0, "a_b", 2⟩]
          (uniqueCats [⟨0, "a b", 1⟩, ⟨0, "a_b", 2⟩]) "absolute" none none).standalone.map
          (fun st => st.fileName)).dedup.length
      < (typesWithData (filterTimeframe [⟨0, "a b", 1⟩, ⟨0, "a_b", 2⟩] none none)
          (uniqueCats [⟨0, "a b", 1⟩, ⟨0, "a_b", 2⟩])).length := by
  refine ⟨by decide, by decide, by decide⟩

/-- C10: `create_graphs` creates the output directory first, before looking
for CSV input; a run that finds no CSV file ends after logging, but the
directory creation has already happened. -/
theorem out_dir_created_before_input_check :
    ∀ (dirListing : List String) (load : LoadedTable),
      (create_graphs dirListing load).head? = some Effect.mkdirOut
      ∧ ((dirListing.filter (fun f => f.endsWith ".csv")).isEmpty = true →
          create_graphs dirListing load = [Effect.mkdirOut, Effect.logNoInput]) := by
  intro dirListing load
  refine ⟨rfl, ?_⟩
  intro h
  simp [create_graphs, h]

/-- C10 witness: an empty data directory still gets the `out` directory
created, then only the no-input notice. -/
theorem out_dir_created_witness :
    (([] : List String).filter (fun f => f.endsWith ".csv")).isEmpty = true
      ∧ create_graphs [] ⟨[], true⟩ = [Effect.mkdirOut, Effect.logNoInput] :=
  ⟨rfl, (out_dir_created_before_input_check [] ⟨[], true⟩).2 rfl⟩
